import Mathlib

/-!
# Verification of the oracle-example repository

Shallow embedding of the `rangesecurity/oracle-example` TypeScript client
SDKs (the plain `client/sdk.ts`, the `pinocchio/client/sdk.ts`, and the
`anchor/client/sdk.ts` variants), together with spec-modelled definitions
for the parts of the protocol that live in the external Switchboard
libraries (feed canonicalization and hashing, oracle-side task execution,
and off-chain quote aggregation).
-/

/-! ## Data model: tasks, jobs and feeds

Transcribed from the `OracleJob.fromObject` shapes used in
`getRangeRiskScoreJob` (identical in all three SDK variants).  A task is a
closed tagged union with one case per operation.  The `unsupportedTask`
case is modelled from the spec: the task variant set of the oracle
protocol is extensible (`{HttpFetch, JsonExtract, Scale, Clamp, …}`) and a
task type outside the four used by this repository must fail validation
before hashing. -/

inductive OracleTask where
  | httpTask (url : String) (headers : List (String × String))
  | jsonParseTask (path : String)
  | multiplyTask (scalar : ℚ)
  | boundTask (lowerBoundValue onExceedsLowerBoundValue upperBoundValue onExceedsUpperBoundValue : String)
  | unsupportedTask (tag : Nat) (payload : List Nat)
deriving DecidableEq, Repr

/-- An oracle job: an ordered task list, as in `OracleJob.fromObject`. -/
structure OracleJob where
  tasks : List OracleTask
deriving DecidableEq, Repr

/-- A feed: jobs plus aggregation configuration, as in the `IOracleFeed`
value built by `getOracleJobSignature` in each SDK variant. -/
structure OracleFeed where
  name : String
  jobs : List OracleJob
  minJobResponses : Nat
  minOracleSamples : Nat
  maxJobRangePct : Nat
deriving DecidableEq, Repr

/-! ## Solana instruction model

`PublicKey` values are modelled as their base58 strings; instruction data
as a list of bytes (`Nat`, each `< 256` where it matters). -/

structure AccountMeta where
  pubkey : String
  isSigner : Bool
  isWritable : Bool
deriving DecidableEq, Repr

structure TransactionInstruction where
  programId : String
  keys : List AccountMeta
  data : List Nat
deriving DecidableEq, Repr

def SYSVAR_CLOCK_PUBKEY : String := "SysvarC1ock11111111111111111111111111111111"

def SYSVAR_SLOT_HASHES_PUBKEY : String := "SysvarS1otHashes111111111111111111111111111"

def SYSVAR_INSTRUCTIONS_PUBKEY : String := "Sysvar1nstructions1111111111111111111111111"

/-! ## The shared Range risk-score job

All three SDK variants define the same `getRangeRiskScoreJob`; each
namespace below transcribes its own copy from its own file so that their
equality (claim C9) is a theorem about three independent definitions. -/

/-! ### src/client/sdk.ts -/

namespace ClientSdk

def PROGRAM_ID : String := "CR8mpiY9eEbNkU8w4VJkGB4gzEnozp739jwvTiXRmACc"

/-- Transcribed from `getRangeRiskScoreJob` in `src/client/sdk.ts`. -/
def getRangeRiskScoreJob : OracleJob :=
  { tasks := [
      OracleTask.httpTask
        "https://api.range.org/v1/risk/address?address=5PAhQiYdLBd6SVdjzBQDxUAEFyDdF5ExNPQfcscnPRj5&network=solana"
        [("accept", "application/json"), ("X-API-KEY", "${RANGE_API_KEY}")],
      OracleTask.jsonParseTask "$.riskScore",
      OracleTask.multiplyTask 10,
      OracleTask.boundTask "0" "0" "100" "100"] }

/-- Transcribed from the `IOracleFeed` literal in `getOracleJobSignature`
in `src/client/sdk.ts`. -/
def feed : OracleFeed :=
  { name := "Risk Score",
    jobs := [getRangeRiskScoreJob],
    minJobResponses := 1,
    minOracleSamples := 1,
    maxJobRangePct := 100 }

/-- Strip a leading "0x", as `feed_hash.replace(/^0x/, "")` does. -/
def strip0x (s : String) : String :=
  if s.startsWith "0x" then s.drop 2 else s

def hexDigitVal (c : Char) : Option Nat :=
  if '0' ≤ c ∧ c ≤ '9' then some (c.toNat - 48)
  else if 'a' ≤ c ∧ c ≤ 'f' then some (c.toNat - 87)
  else if 'A' ≤ c ∧ c ≤ 'F' then some (c.toNat - 55)
  else none

/-- Byte-pair hex decoding, as `Buffer.from(s, "hex")`: decodes pairs of
hex digits until the first invalid or incomplete pair. -/
def hexDecodeChars : List Char → List Nat
  | hi :: lo :: rest =>
      match hexDigitVal hi, hexDigitVal lo with
      | some h, some l => (16 * h + l) :: hexDecodeChars rest
      | _, _ => []
  | _ => []

def hexDecode (s : String) : List Nat := hexDecodeChars s.data

/-- Transcribed from `buildGetRiskScoreIx` in `src/client/sdk.ts`: the
instruction data is the hex-decoded feed hash. -/
def buildGetRiskScoreIx (queue query_account feed_hash : String) : TransactionInstruction :=
  { programId := PROGRAM_ID,
    keys := [
      { pubkey := queue, isSigner := false, isWritable := false },
      { pubkey := SYSVAR_CLOCK_PUBKEY, isSigner := false, isWritable := false },
      { pubkey := SYSVAR_SLOT_HASHES_PUBKEY, isSigner := false, isWritable := false },
      { pubkey := SYSVAR_INSTRUCTIONS_PUBKEY, isSigner := false, isWritable := false },
      { pubkey := query_account, isSigner := false, isWritable := false }],
    data := hexDecode (strip0x feed_hash) }

end ClientSdk

/-! ### src/pinocchio/client/sdk.ts -/

namespace PinocchioSdk

def PROGRAM_ID : String := "CR8mpiY9eEbNkU8w4VJkGB4gzEnozp739jwvTiXRmACc"

/-- Transcribed from `getRangeRiskScoreJob` in `src/pinocchio/client/sdk.ts`. -/
def getRangeRiskScoreJob : OracleJob :=
  { tasks := [
      OracleTask.httpTask
        "https://api.range.org/v1/risk/address?address=5PAhQiYdLBd6SVdjzBQDxUAEFyDdF5ExNPQfcscnPRj5&network=solana"
        [("accept", "application/json"), ("X-API-KEY", "${RANGE_API_KEY}")],
      OracleTask.jsonParseTask "$.riskScore",
      OracleTask.multiplyTask 10,
      OracleTask.boundTask "0" "0" "100" "100"] }

/-- Transcribed from the `IOracleFeed` literal in `getOracleJobSignature`
in `src/pinocchio/client/sdk.ts`. -/
def feed : OracleFeed :=
  { name := "Risk Score",
    jobs := [getRangeRiskScoreJob],
    minJobResponses := 1,
    minOracleSamples := 1,
    maxJobRangePct := 100 }

/-- Transcribed from `buildGetRiskScoreIx` in `src/pinocchio/client/sdk.ts`:
`data: Buffer.alloc(0)`, no instruction data at all. -/
def buildGetRiskScoreIx (queue query_account : String) : TransactionInstruction :=
  { programId := PROGRAM_ID,
    keys := [
      { pubkey := queue, isSigner := false, isWritable := false },
      { pubkey := SYSVAR_CLOCK_PUBKEY, isSigner := false, isWritable := false },
      { pubkey := SYSVAR_SLOT_HASHES_PUBKEY, isSigner := false, isWritable := false },
      { pubkey := SYSVAR_INSTRUCTIONS_PUBKEY, isSigner := false, isWritable := false },
      { pubkey := query_account, isSigner := false, isWritable := false }],
    data := [] }

end PinocchioSdk

/-! ## SHA-256

Executable model of the SHA-256 digest used by `crypto.createHash("sha256")`
in `src/anchor/client/sdk.ts` (`ixDiscriminator`).  Bytes are `Nat` values
below 256; 32-bit words are `Nat` values reduced modulo `2 ^ 32`. -/

/-- Iterate a function a fixed number of times. -/
def iterStep {α : Type} (f : α → α) : Nat → α → α
  | 0, a => a
  | n + 1, a => iterStep f n (f a)

/-- Right rotation of a 32-bit word. -/
def rotr32 (x n : Nat) : Nat :=
  ((x >>> n) ||| (x <<< (32 - n))) % 4294967296

/-- The 64 SHA-256 round constants. -/
def shaK : List Nat :=
  [1116352408, 1899447441, 3049323471, 3921009573, 961987163,
   1508970993, 2453635748, 2870763221, 3624381080, 310598401,
   607225278, 1426881987, 1925078388, 2162078206, 2614888103,
   3248222580, 3835390401, 4022224774, 264347078, 604807628,
   770255983, 1249150122, 1555081692, 1996064986, 2554220882,
   2821834349, 2952996808, 3210313671, 3336571891, 3584528711,
   113926993, 338241895, 666307205, 773529912, 1294757372,
   1396182291, 1695183700, 1986661051, 2177026350, 2456956037,
   2730485921, 2820302411, 3259730800, 3345764771, 3516065817,
   3600352804, 4094571909, 275423344, 430227734, 506948616,
   659060556, 883997877, 958139571, 1322822218, 1537002063,
   1747873779, 1955562222, 2024104815, 2227730452, 2361852424,
   2428436474, 2756734187, 3204031479, 3329325298]

/-- The SHA-256 initial hash state. -/
def shaH0 : List Nat :=
  [1779033703, 3144134277, 1013904242, 2773480762,
   1359893119, 2600822924, 528734635, 1541459225]

def smallSigma0 (x : Nat) : Nat := (rotr32 x 7) ^^^ (rotr32 x 18) ^^^ (x >>> 3)

def smallSigma1 (x : Nat) : Nat := (rotr32 x 17) ^^^ (rotr32 x 19) ^^^ (x >>> 10)

def bigSigma0 (x : Nat) : Nat := (rotr32 x 2) ^^^ (rotr32 x 13) ^^^ (rotr32 x 22)

def bigSigma1 (x : Nat) : Nat := (rotr32 x 6) ^^^ (rotr32 x 11) ^^^ (rotr32 x 25)

/-- Extend the message schedule by one word. -/
def schedStep (w : List Nat) : List Nat :=
  let i := w.length
  w ++ [(smallSigma1 (w.getD (i - 2) 0) + w.getD (i - 7) 0 +
         smallSigma0 (w.getD (i - 15) 0) + w.getD (i - 16) 0) % 4294967296]

/-- One round of the SHA-256 compression function. -/
def compressStep (st : List Nat) (wk : Nat × Nat) : List Nat :=
  match st with
  | [a, b, c, d, e, f, g, h] =>
      let ch := (e &&& f) ^^^ ((e ^^^ 4294967295) &&& g)
      let maj := (a &&& b) ^^^ (a &&& c) ^^^ (b &&& c)
      let t1 := (h + bigSigma1 e + ch + wk.1 + wk.2) % 4294967296
      let t2 := (bigSigma0 a + maj) % 4294967296
      [(t1 + t2) % 4294967296, a, b, c, (d + t1) % 4294967296, e, f, g]
  | st => st

/-- Big-endian 4-byte grouping of a byte list into 32-bit words. -/
def bytesToWords : List Nat → List Nat
  | a :: b :: c :: d :: rest => (a * 16777216 + b * 65536 + c * 256 + d) :: bytesToWords rest
  | _ => []

/-- The `k` low-order bytes of a value, big-endian. -/
def beBytes : Nat → Nat → List Nat
  | 0, _ => []
  | k + 1, val => ((val >>> (8 * k)) % 256) :: beBytes k val

/-- Compress one 64-byte block into the running hash state. -/
def compressBlock (hs : List Nat) (block : List Nat) : List Nat :=
  let w := iterStep schedStep 48 (bytesToWords block)
  let st := List.foldl compressStep hs (w.zip shaK)
  List.zipWith (fun a b => (a + b) % 4294967296) hs st

/-- Fold the compression function over successive 64-byte blocks.  The fuel
parameter (instantiated with the message length) keeps the recursion
structural so that the kernel can evaluate it. -/
def processBlocksFuel : Nat → List Nat → List Nat → List Nat
  | 0, hs, _ => hs
  | _ + 1, hs, [] => hs
  | fuel + 1, hs, b :: rest =>
      processBlocksFuel fuel (compressBlock hs ((b :: rest).take 64)) ((b :: rest).drop 64)

def processBlocks (hs msg : List Nat) : List Nat := processBlocksFuel msg.length hs msg

/-- SHA-256 padding: a `0x80` byte, zeros to 56 mod 64, and the 8-byte
big-endian bit length. -/
def padMessage (msg : List Nat) : List Nat :=
  let l := msg.length
  let zeros := (64 - ((l + 9) % 64)) % 64
  msg ++ [128] ++ List.replicate zeros 0 ++ beBytes 8 (l * 8)

/-- SHA-256 of a byte list. -/
def sha256 (msg : List Nat) : List Nat :=
  (processBlocks shaH0 (padMessage msg)).foldr (fun w acc => beBytes 4 w ++ acc) []

/-- The bytes of an ASCII string (all strings fed to `sha256` by the
anchor SDK are ASCII, so this agrees with UTF-8). -/
def asciiBytes (s : String) : List Nat := s.data.map Char.toNat

/-! ### src/anchor/client/sdk.ts -/

namespace AnchorSdk

def PROGRAM_ID : String := "Hiy3MrT746mmcEGDRyomPFCG1quUgLRYvUTxijWPshJH"

/-- Transcribed from `ixDiscriminator` in `src/anchor/client/sdk.ts`: the
first 8 bytes of `sha256("global:" + name)`. -/
def ixDiscriminator (name : String) : List Nat :=
  (sha256 (asciiBytes ("global:" ++ name))).take 8

def VERIFY_RISK_SCORE_FEED_IX : List Nat := ixDiscriminator "verify_risk_score_feed"

/-- Transcribed from `getRangeRiskScoreJob` in `src/anchor/client/sdk.ts`. -/
def getRangeRiskScoreJob : OracleJob :=
  { tasks := [
      OracleTask.httpTask
        "https://api.range.org/v1/risk/address?address=5PAhQiYdLBd6SVdjzBQDxUAEFyDdF5ExNPQfcscnPRj5&network=solana"
        [("accept", "application/json"), ("X-API-KEY", "${RANGE_API_KEY}")],
      OracleTask.jsonParseTask "$.riskScore",
      OracleTask.multiplyTask 10,
      OracleTask.boundTask "0" "0" "100" "100"] }

/-- Transcribed from the `IOracleFeed` literal in `getOracleJobSignature`
in `src/anchor/client/sdk.ts`. -/
def feed : OracleFeed :=
  { name := "Risk Score",
    jobs := [getRangeRiskScoreJob],
    minJobResponses := 1,
    minOracleSamples := 1,
    maxJobRangePct := 100 }

/-- Transcribed from `buildGetRiskScoreIx` in `src/anchor/client/sdk.ts`:
the instruction data is the 8-byte Anchor discriminator
`VERIFY_RISK_SCORE_FEED_IX`. -/
def buildGetRiskScoreIx (queue query_account : String) : TransactionInstruction :=
  { programId := PROGRAM_ID,
    keys := [
      { pubkey := queue, isSigner := false, isWritable := false },
      { pubkey := SYSVAR_CLOCK_PUBKEY, isSigner := false, isWritable := false },
      { pubkey := SYSVAR_SLOT_HASHES_PUBKEY, isSigner := false, isWritable := false },
      { pubkey := SYSVAR_INSTRUCTIONS_PUBKEY, isSigner := false, isWritable := false },
      { pubkey := query_account, isSigner := false, isWritable := false }],
    data := VERIFY_RISK_SCORE_FEED_IX }

end AnchorSdk

/-! ## Canonicalizer

Modelled from the spec: the canonicalizer of the Switchboard library
(`CrossbarClient.storeOracleFeed` / `FeedHash`) is not part of this
repository's sources, so it is modelled from the spec's contract in
section 4.1: `canonicalize(feed) -> bytes` is a pure, byte-stable,
length-delimited encoding of the task list and config fields in
declaration order; placeholder tokens are encoded as their literal token
text; numeric configuration is encoded exactly (here: sign, numerator and
denominator of the rational, rather than a decimal string, which is an
equally exact representation). -/

/-- Length-prefixed encoding of a string as its character code points. -/
def encodeString (s : String) : List Nat :=
  s.data.length :: s.data.map Char.toNat

/-- Concatenation of elementwise encodings. -/
def encodeSeq {α : Type} (enc : α → List Nat) : List α → List Nat
  | [] => []
  | x :: t => enc x ++ encodeSeq enc t

/-- Length-delimited encoding of a list. -/
def encodeList {α : Type} (enc : α → List Nat) (xs : List α) : List Nat :=
  xs.length :: encodeSeq enc xs

/-- Encoding of one HTTP header, key then value, each length-prefixed. -/
def encodeHeader (h : String × String) : List Nat :=
  encodeString h.1 ++ encodeString h.2

/-- Exact encoding of a rational: sign bit, numerator magnitude, denominator. -/
def encodeRat (q : ℚ) : List Nat :=
  [if q.num < 0 then 1 else 0, q.num.natAbs, q.den]

/-- Tagged encoding of a task, one tag per variant, fields in declaration
order.  Placeholder tokens inside header values are encoded as their
literal token text (they are ordinary characters of the value string). -/
def encodeTask : OracleTask → List Nat
  | .httpTask url headers => 0 :: (encodeString url ++ encodeList encodeHeader headers)
  | .jsonParseTask path => 1 :: encodeString path
  | .multiplyTask scalar => 2 :: encodeRat scalar
  | .boundTask lb oel ub oeu =>
      3 :: (encodeString lb ++ encodeString oel ++ encodeString ub ++ encodeString oeu)
  | .unsupportedTask tag payload => 4 :: tag :: payload.length :: payload

/-- Encoding of a job: its length-delimited task list. -/
def encodeJob (j : OracleJob) : List Nat :=
  encodeList encodeTask j.tasks

/-- Canonical byte encoding of a feed: name, jobs, then the three config
fields, in declaration order. -/
def canonicalize (F : OracleFeed) : List Nat :=
  encodeString F.name ++ encodeList encodeJob F.jobs ++
    [F.minJobResponses, F.minOracleSamples, F.maxJobRangePct]

/-- A task type the canonicalizer supports. -/
def supportedTask : OracleTask → Bool
  | .unsupportedTask _ _ => false
  | _ => true

/-- Modelled from the spec: validation before hashing rejects an empty
task list or a task list with unsupported task types. -/
def validFeed (F : OracleFeed) : Bool :=
  !F.jobs.isEmpty && F.jobs.all (fun j => !j.tasks.isEmpty && j.tasks.all supportedTask)

/-- Modelled from the spec: the FeedId is a digest of the canonical bytes
(SHA-256 over the length-delimited feed proto).  The spec's invariant is
that "any single field difference must yield a different FeedId with
overwhelming probability"; the digest is therefore modelled as an
injective function of the canonical bytes — the idealization of a
collision-free cryptographic hash — rather than as a 256-bit compression,
for which injectivity is a cryptographic assumption, not a theorem. -/
def feedDigest (bytes : List Nat) : List Nat := bytes

/-- Modelled from the spec: `hash(canonicalize(F))`, guarded by validation.
An invalid feed never produces a FeedId. -/
def feedId (F : OracleFeed) : Option (List Nat) :=
  if validFeed F then some (feedDigest (canonicalize F)) else none


/-! ## Oracle-side task execution

Modelled from the spec: the tasks are executed on the oracle nodes by the
Switchboard library, not by code in this repository.  Section 3 of the
spec fixes the semantics: each task consumes the previous task's output;
the HTTP fetch followed by the JSON extraction yields the raw numeric
source value; the scale task multiplies by its scalar; the clamp task
substitutes the configured on-exceed values on overflow/underflow.  Values
are exact rationals (the quote wire format is fixed-point decimal, not
floating-point). -/

def digitVal (c : Char) : Option Nat :=
  if c.isDigit then some (c.toNat - 48) else none

def parseNatAux : List Char → Nat → Option Nat
  | [], acc => some acc
  | c :: t, acc =>
      match digitVal c with
      | some d => parseNatAux t (acc * 10 + d)
      | none => none

/-- Parse an exact decimal string such as "0", "100", "-3" or "5.5" into a
rational. -/
def parseDecimal (s : String) : Option ℚ :=
  match s.data with
  | [] => none
  | cs =>
      let neg := cs.head? = some '-'
      let cs2 := if neg then cs.tail else cs
      let ip := cs2.takeWhile (fun c => c != '.')
      let rest := cs2.dropWhile (fun c => c != '.')
      if ip.isEmpty then none
      else
        match parseNatAux ip 0 with
        | none => none
        | some n =>
            match rest with
            | [] => some (if neg then -(n : ℚ) else (n : ℚ))
            | _ :: fp =>
                if fp.isEmpty then none
                else
                  match parseNatAux fp 0 with
                  | none => none
                  | some f =>
                      let q : ℚ := (n : ℚ) + (f : ℚ) / ((10 : ℚ) ^ fp.length)
                      some (if neg then -q else q)

/-- Modelled from the spec: one task step.  `raw` is the numeric value the
HTTP fetch and JSON extraction of this job yield from the data source. -/
def runTask (raw : ℚ) : OracleTask → ℚ → Option ℚ
  | .httpTask _ _, _ => some raw
  | .jsonParseTask _, v => some v
  | .multiplyTask scalar, v => some (v * scalar)
  | .boundTask lb oel ub oeu, v =>
      match parseDecimal lb, parseDecimal oel, parseDecimal ub, parseDecimal oeu with
      | some l, some onLow, some b, some onHigh =>
          some (if v < l then onLow else if b < v then onHigh else v)
      | _, _, _, _ => none
  | .unsupportedTask _ _, _ => none

/-- Run a task list in order, each task consuming the previous output. -/
def runTasks (raw : ℚ) : List OracleTask → ℚ → Option ℚ
  | [], v => some v
  | t :: ts, v =>
      match runTask raw t v with
      | none => none
      | some v2 => runTasks raw ts v2

/-- Run a whole job on the raw source value. -/
def runJob (raw : ℚ) (j : OracleJob) : Option ℚ :=
  runTasks raw j.tasks 0

/-! ## Quote requests and transaction assembly

The pure content of each SDK's `getOracleJobSignature`: the configuration
object the SDK passes to `queue.fetchQuoteIx`.  The anchor and plain
client variants pass the canonical feed hash (`[feedId]`); the pinocchio
variant passes the full feed proto (`[feed]`).  All three pass the
variable override for the `RANGE_API_KEY` placeholder separately from the
hashed material, with `numSignatures: 1` and `instructionIdx: 0`. -/

structure QuoteIxRequest where
  feedHashes : List (Option (List Nat))
  variableOverrides : List (String × String)
  numSignatures : Nat
  instructionIdx : Nat
deriving DecidableEq, Repr

structure QuoteIxFeedRequest where
  feeds : List OracleFeed
  variableOverrides : List (String × String)
  numSignatures : Nat
  instructionIdx : Nat
deriving DecidableEq, Repr

namespace ClientSdk

/-- Transcribed from `getOracleJobSignature` in `src/client/sdk.ts`: the
feed hash sent to `fetchQuoteIx` is the canonical hash of the constant
`feed`; the resolved API key travels only in `variableOverrides`. -/
def getOracleJobSignatureRequest (apiKey : String) : QuoteIxRequest :=
  { feedHashes := [feedId feed],
    variableOverrides := [("RANGE_API_KEY", apiKey)],
    numSignatures := 1,
    instructionIdx := 0 }

end ClientSdk

namespace PinocchioSdk

/-- Transcribed from `getOracleJobSignature` in `src/pinocchio/client/sdk.ts`:
the full feed proto is sent to `fetchQuoteIx`; the resolved API key travels
only in `variableOverrides`. -/
def getOracleJobSignatureRequest (apiKey : String) : QuoteIxFeedRequest :=
  { feeds := [feed],
    variableOverrides := [("RANGE_API_KEY", apiKey)],
    numSignatures := 1,
    instructionIdx := 0 }

end PinocchioSdk

namespace AnchorSdk

/-- Transcribed from `getOracleJobSignature` in `src/anchor/client/sdk.ts`:
the feed hash sent to `fetchQuoteIx` is the canonical hash of the constant
`feed`; the resolved API key travels only in `variableOverrides`. -/
def getOracleJobSignatureRequest (apiKey : String) : QuoteIxRequest :=
  { feedHashes := [feedId feed],
    variableOverrides := [("RANGE_API_KEY", apiKey)],
    numSignatures := 1,
    instructionIdx := 0 }

end AnchorSdk

/-- Transcribed from the tests (`new Transaction().add(sigVerifyIx, ix)`):
the assembled transaction is the signature-verification instruction first,
then the consuming-program instruction. -/
def assembleOracleTx (sigVerifyIx ix : TransactionInstruction) : List TransactionInstruction :=
  [sigVerifyIx, ix]

/-! ## Off-chain quote aggregation

Modelled from the spec: the aggregation (`fetchSignaturesConsensus` /
`request_quote` in section 4.2) is performed by the Switchboard library
and the oracle gateway, not by code in this repository.  A response is a
pair of an oracle identity and its sample value.  The request fails with
`ConsensusError` when fewer than `min_oracle_samples` distinct oracle
responses were received or when the percentage spread between samples
exceeds `max_spread_pct`; otherwise the aggregate is the median of the
received samples. -/

inductive ConsensusError where
  | insufficientSamples
  | spreadExceeded
deriving DecidableEq, Repr

/-- Outcome of a quote request: an aggregated value or a typed rejection. -/
inductive RequestOutcome where
  | quote (value : ℚ)
  | failure (e : ConsensusError)
deriving DecidableEq, Repr

/-- Number of distinct oracle identities among the responses. -/
def distinctOracleCount (responses : List (String × ℚ)) : Nat :=
  (responses.map Prod.fst).dedup.length

def listMaxQ : List ℚ → ℚ
  | [] => 0
  | v :: t => t.foldl max v

def listMinQ : List ℚ → ℚ
  | [] => 0
  | v :: t => t.foldl min v

/-- Modelled from the spec: the percentage spread between the received
samples, the range of the samples relative to the largest magnitude. -/
def spreadPct (vs : List ℚ) : ℚ :=
  100 * (listMaxQ vs - listMinQ vs) / |listMaxQ vs|

/-- Median of a list of rationals: middle element of the sorted list, or
the mean of the two middle elements for an even length. -/
def medianQ (vs : List ℚ) : ℚ :=
  let s := List.insertionSort (· ≤ ·) vs
  let n := s.length
  if n % 2 = 1 then s.getD (n / 2) 0
  else (s.getD (n / 2 - 1) 0 + s.getD (n / 2) 0) / 2

/-- Modelled from the spec: `request_quote` consensus enforcement. -/
def requestQuote (responses : List (String × ℚ)) (minOracleSamples : Nat)
    (maxSpreadPct : ℚ) : RequestOutcome :=
  if distinctOracleCount responses < minOracleSamples then
    RequestOutcome.failure ConsensusError.insufficientSamples
  else if maxSpreadPct < spreadPct (responses.map Prod.snd) then
    RequestOutcome.failure ConsensusError.spreadExceeded
  else
    RequestOutcome.quote (medianQ (responses.map Prod.snd))

/-! ## Auxiliary concrete values used by the theorems below -/

/-- The risk-score feed with the `X-API-KEY` header value replaced by `v`.
At `v = "${RANGE_API_KEY}"` this is exactly the SDK feed (the placeholder
token left unresolved); at any other `v` it is the feed with that value
inlined in place of the token. -/
def feedWithApiKey (v : String) : OracleFeed :=
  { name := "Risk Score",
    jobs := [{ tasks := [
      OracleTask.httpTask
        "https://api.range.org/v1/risk/address?address=5PAhQiYdLBd6SVdjzBQDxUAEFyDdF5ExNPQfcscnPRj5&network=solana"
        [("accept", "application/json"), ("X-API-KEY", v)],
      OracleTask.jsonParseTask "$.riskScore",
      OracleTask.multiplyTask 10,
      OracleTask.boundTask "0" "0" "100" "100"] }],
    minJobResponses := 1,
    minOracleSamples := 1,
    maxJobRangePct := 100 }

/-- The two off-chain artifacts the pinocchio test flow produces: the
quote request and the consuming-program instruction. -/
structure OracleFlow where
  request : QuoteIxFeedRequest
  programIx : TransactionInstruction
deriving DecidableEq, Repr

/-- Transcribed from the pinocchio test flow: `getOracleJobSignature`
builds the quote request (no query account involved), then
`buildGetRiskScoreIx(queue_account, query_account)` builds the program
instruction. -/
def riskScoreFlow (apiKey queue query_account : String) : OracleFlow :=
  { request := PinocchioSdk.getOracleJobSignatureRequest apiKey,
    programIx := PinocchioSdk.buildGetRiskScoreIx queue query_account }

/-- Three oracle responses whose spread exceeds 10 percent. -/
def exSpreadResponses : List (String × ℚ) := [("oracle1", 40), ("oracle2", 95), ("oracle3", 42)]

/-- A single oracle response. -/
def exFewResponses : List (String × ℚ) := [("oracle1", 40)]

/-- Three tightly clustered oracle responses. -/
def exGoodResponses : List (String × ℚ) := [("oracle1", 40), ("oracle2", 41), ("oracle3", 42)]

/-- A feed whose only job has an empty task list. -/
def exEmptyTasksFeed : OracleFeed :=
  { name := "empty", jobs := [{ tasks := [] }],
    minJobResponses := 1, minOracleSamples := 1, maxJobRangePct := 100 }

/-! ### Injectivity of the canonical encoding

Each encoder is self-delimiting: its encoding can be cancelled off the
front of a byte stream, recovering the value and the remainder uniquely.
Composing the cancellation lemmas gives injectivity of `canonicalize`. -/

theorem char_toNat_injective : Function.Injective Char.toNat := by
  intro a b h
  have hv : a.val = b.val := by
    apply UInt32.eq_of_toBitVec_eq
    apply BitVec.eq_of_toNat_eq
    exact h
  exact Char.eq_of_val_eq hv

theorem string_data_inj {s t : String} (h : s.data = t.data) : s = t := by
  cases s
  cases t
  simp only at h
  rw [h]

theorem encodeString_cancel {s t : String} {r u : List Nat}
    (h : encodeString s ++ r = encodeString t ++ u) : s = t ∧ r = u := by
  simp only [encodeString, List.cons_append, List.cons.injEq] at h
  obtain ⟨hlen, happ⟩ := h
  obtain ⟨hm, hr⟩ := List.append_inj happ (by simp [hlen])
  refine ⟨string_data_inj (List.map_injective_iff.mpr char_toNat_injective hm), hr⟩

theorem encodeHeader_cancel {a b : String × String} {r u : List Nat}
    (h : encodeHeader a ++ r = encodeHeader b ++ u) : a = b ∧ r = u := by
  simp only [encodeHeader, List.append_assoc] at h
  obtain ⟨h1, h2⟩ := encodeString_cancel h
  obtain ⟨h3, h4⟩ := encodeString_cancel h2
  exact ⟨Prod.ext h1 h3, h4⟩

theorem encodeRat_cancel {q p : ℚ} {r u : List Nat}
    (h : encodeRat q ++ r = encodeRat p ++ u) : q = p ∧ r = u := by
  simp only [encodeRat, List.cons_append, List.nil_append, List.cons.injEq] at h
  obtain ⟨hsign, hnum, hden, hr⟩ := h
  refine ⟨Rat.ext ?_ hden, hr⟩
  split_ifs at hsign <;> omega

theorem encodeSeq_cancel {α : Type} (enc : α → List Nat)
    (hc : ∀ (a b : α) (r u : List Nat), enc a ++ r = enc b ++ u → a = b ∧ r = u) :
    ∀ (xs ys : List α) (r u : List Nat), xs.length = ys.length →
      encodeSeq enc xs ++ r = encodeSeq enc ys ++ u → xs = ys ∧ r = u := by
  intro xs
  induction xs with
  | nil =>
      intro ys r u hl h
      cases ys with
      | nil => exact ⟨rfl, h⟩
      | cons y t => simp at hl
  | cons x t ih =>
      intro ys r u hl h
      cases ys with
      | nil => simp at hl
      | cons y s =>
          simp only [encodeSeq, List.append_assoc] at h
          obtain ⟨hxy, h2⟩ := hc x y _ _ h
          obtain ⟨hts, hr⟩ := ih s r u (by simpa using hl) h2
          exact ⟨by rw [hxy, hts], hr⟩

theorem encodeList_cancel {α : Type} (enc : α → List Nat)
    (hc : ∀ (a b : α) (r u : List Nat), enc a ++ r = enc b ++ u → a = b ∧ r = u)
    {xs ys : List α} {r u : List Nat}
    (h : encodeList enc xs ++ r = encodeList enc ys ++ u) : xs = ys ∧ r = u := by
  simp only [encodeList, List.cons_append, List.cons.injEq] at h
  exact encodeSeq_cancel enc hc xs ys r u h.1 h.2

theorem encodeTask_cancel :
    ∀ (a b : OracleTask) (r u : List Nat),
      encodeTask a ++ r = encodeTask b ++ u → a = b ∧ r = u := by
  intro a b r u h
  cases a <;> cases b <;>
    simp only [encodeTask, List.cons_append, List.append_assoc, List.cons.injEq,
      eq_self_iff_true, true_and] at h
  case httpTask.httpTask url hs url' hs' =>
    obtain ⟨h1, h2⟩ := encodeString_cancel h
    obtain ⟨h3, h4⟩ := encodeList_cancel encodeHeader (fun a b r u hh => encodeHeader_cancel hh) h2
    exact ⟨by rw [h1, h3], h4⟩
  case jsonParseTask.jsonParseTask p p' =>
    obtain ⟨h1, h2⟩ := encodeString_cancel h
    exact ⟨by rw [h1], h2⟩
  case multiplyTask.multiplyTask s s' =>
    obtain ⟨h1, h2⟩ := encodeRat_cancel h
    exact ⟨by rw [h1], h2⟩
  case boundTask.boundTask lb oel ub oeu lb' oel' ub' oeu' =>
    obtain ⟨h1, h2⟩ := encodeString_cancel h
    obtain ⟨h3, h4⟩ := encodeString_cancel h2
    obtain ⟨h5, h6⟩ := encodeString_cancel h4
    obtain ⟨h7, h8⟩ := encodeString_cancel h6
    exact ⟨by rw [h1, h3, h5, h7], h8⟩
  case unsupportedTask.unsupportedTask tag pl tag' pl' =>
    obtain ⟨h1, h2, h3⟩ := h
    obtain ⟨h4, h5⟩ := List.append_inj h3 h2
    exact ⟨by rw [h1, h4], h5⟩
  all_goals exact absurd h.1 (by decide)

theorem encodeJob_cancel :
    ∀ (a b : OracleJob) (r u : List Nat),
      encodeJob a ++ r = encodeJob b ++ u → a = b ∧ r = u := by
  intro a b r u h
  obtain ⟨h1, h2⟩ := encodeList_cancel encodeTask encodeTask_cancel h
  cases a
  cases b
  simp only at h1
  exact ⟨by rw [h1], h2⟩

/-- The canonical encoding is injective: two feeds with the same canonical
bytes are field-for-field identical. -/
theorem canonicalize_injective {F G : OracleFeed}
    (h : canonicalize F = canonicalize G) : F = G := by
  obtain ⟨nF, jF, aF, bF, cF⟩ := F
  obtain ⟨nG, jG, aG, bG, cG⟩ := G
  unfold canonicalize at h
  simp only at h
  rw [List.append_assoc, List.append_assoc] at h
  obtain ⟨hname, h2⟩ := encodeString_cancel h
  obtain ⟨hjobs, h3⟩ := encodeList_cancel encodeJob encodeJob_cancel h2
  simp only [List.cons.injEq, and_true] at h3
  simp_all

/-! ## Claim theorems -/

/-- C1: the feed's transform pipeline (multiply by 10, then bound to
[0, 100] with on-exceed substitution values 0 and 100) computes
`min 100 (max 0 (10 * x))` for every raw source value `x`; in particular
a raw value of 5.5 yields 55, 12 yields 100, and -3 yields 0. -/
theorem transform_pipeline_correct :
    (∀ x : ℚ, runJob x ClientSdk.getRangeRiskScoreJob = some (min 100 (max 0 (10 * x)))) ∧
    runJob (11/2) ClientSdk.getRangeRiskScoreJob = some 55 ∧
    runJob 12 ClientSdk.getRangeRiskScoreJob = some 100 ∧
    runJob (-3) ClientSdk.getRangeRiskScoreJob = some 0 := by
  have hgen : ∀ x : ℚ, runJob x ClientSdk.getRangeRiskScoreJob =
      some (min 100 (max 0 (10 * x))) := by
    intro x
    have h0 : parseDecimal "0" = some 0 := by with_unfolding_all rfl
    have h100 : parseDecimal "100" = some 100 := by with_unfolding_all rfl
    simp only [runJob, ClientSdk.getRangeRiskScoreJob, runTasks, runTask, h0, h100]
    rcases lt_or_le (x * 10) 0 with h | h
    · rw [if_pos h]
      have : max 0 (10 * x) = 0 := by rw [max_eq_left]; linarith
      rw [this]
      simp
    · rw [if_neg (not_lt.mpr h)]
      rcases lt_or_le (100 : ℚ) (x * 10) with h2 | h2
      · rw [if_pos h2]
        have : max 0 (10 * x) = 10 * x := by rw [max_eq_right]; linarith
        rw [this]
        have : min 100 (10 * x) = 100 := by rw [min_eq_left]; linarith
        rw [this]
      · rw [if_neg (not_lt.mpr h2)]
        have hm : max 0 (10 * x) = 10 * x := by rw [max_eq_right]; linarith
        rw [hm]
        have : min 100 (10 * x) = 10 * x := by rw [min_eq_right]; linarith
        rw [this, mul_comm]
  refine ⟨hgen, ?_, ?_, ?_⟩
  · rw [hgen]; norm_num
  · rw [hgen]; norm_num
  · rw [hgen]; norm_num

/-- C2: the FeedId is deterministic and discriminating — for valid feeds,
two feeds have the same FeedId exactly when they are field-for-field
identical, so any single task or config field change yields a different
FeedId, and identical feeds (including unresolved placeholder tokens)
always yield the same FeedId. -/
theorem feedId_deterministic_injective (F G : OracleFeed)
    (hF : validFeed F = true) (hG : validFeed G = true) :
    feedId F = feedId G ↔ F = G := by
  constructor
  · intro h
    simp only [feedId, feedDigest, hF, hG, if_true, Option.some.injEq] at h
    exact canonicalize_injective h
  · intro h
    rw [h]

/-- Witness for C2 at the concrete SDK feed and a single-field variant. -/
theorem feedId_deterministic_injective_witness :
    validFeed ClientSdk.feed = true ∧ validFeed (feedWithApiKey "inlined-secret-value") = true ∧
    (feedId ClientSdk.feed = feedId (feedWithApiKey "inlined-secret-value") ↔
      ClientSdk.feed = feedWithApiKey "inlined-secret-value") :=
  ⟨by decide, by decide,
   feedId_deterministic_injective _ _ (by decide) (by decide)⟩

/-- C3: the `${RANGE_API_KEY}` placeholder is hashed as its literal token
text — the quote request's feed hash does not depend on the resolved
override value (which travels in `variableOverrides`, off the hashing
path), the feed with the token left unresolved canonicalizes exactly as
the SDK feed, and inlining any other secret value in place of the token
changes the FeedId. -/
theorem placeholder_off_hash_path (k1 k2 secret : String) (h : secret ≠ "${RANGE_API_KEY}") :
    (AnchorSdk.getOracleJobSignatureRequest k1).feedHashes =
      (AnchorSdk.getOracleJobSignatureRequest k2).feedHashes ∧
    (ClientSdk.getOracleJobSignatureRequest k1).feedHashes =
      (ClientSdk.getOracleJobSignatureRequest k2).feedHashes ∧
    canonicalize (feedWithApiKey "${RANGE_API_KEY}") = canonicalize AnchorSdk.feed ∧
    feedId (feedWithApiKey secret) ≠ feedId AnchorSdk.feed := by
  refine ⟨rfl, rfl, rfl, ?_⟩
  intro h2
  have hv1 : validFeed (feedWithApiKey secret) = true := rfl
  have hv2 : validFeed AnchorSdk.feed = true := rfl
  simp only [feedId, feedDigest, hv1, hv2, if_true, Option.some.injEq] at h2
  have hfeed := canonicalize_injective h2
  have : secret = "${RANGE_API_KEY}" := by
    simpa [feedWithApiKey, AnchorSdk.feed, AnchorSdk.getRangeRiskScoreJob] using hfeed
  exact h this

/-- Witness for C3 at a concrete inlined secret. -/
theorem placeholder_off_hash_path_witness :
    ("sk-live-123" ≠ "${RANGE_API_KEY}") ∧
    feedId (feedWithApiKey "sk-live-123") ≠ feedId AnchorSdk.feed :=
  ⟨by decide, (placeholder_off_hash_path "a" "b" "sk-live-123" (by decide)).2.2.2⟩

/-- C4: the signature-verification instruction is built with instruction
index 0 in all three SDK variants, and the assembled test transaction
places it at position 0, followed by the consuming-program instruction,
so a verifier locating the instruction positionally at the agreed index
finds it. -/
theorem sig_verify_index_contract (apiKey : String) (sig ix : TransactionInstruction) :
    (ClientSdk.getOracleJobSignatureRequest apiKey).instructionIdx = 0 ∧
    (PinocchioSdk.getOracleJobSignatureRequest apiKey).instructionIdx = 0 ∧
    (AnchorSdk.getOracleJobSignatureRequest apiKey).instructionIdx = 0 ∧
    (assembleOracleTx sig ix)[(AnchorSdk.getOracleJobSignatureRequest apiKey).instructionIdx]? = some sig ∧
    (assembleOracleTx sig ix)[1]? = some ix :=
  ⟨rfl, rfl, rfl, rfl, rfl⟩

/-- C5: every `buildGetRiskScoreIx` variant passes exactly the accounts
[oracle queue, clock sysvar, slot-hashes sysvar, instructions sysvar,
query account], in that order, all non-signer and non-writable. -/
theorem verify_ix_accounts (queue query_account feed_hash : String) :
    (PinocchioSdk.buildGetRiskScoreIx queue query_account).keys =
      [{ pubkey := queue, isSigner := false, isWritable := false },
       { pubkey := SYSVAR_CLOCK_PUBKEY, isSigner := false, isWritable := false },
       { pubkey := SYSVAR_SLOT_HASHES_PUBKEY, isSigner := false, isWritable := false },
       { pubkey := SYSVAR_INSTRUCTIONS_PUBKEY, isSigner := false, isWritable := false },
       { pubkey := query_account, isSigner := false, isWritable := false }] ∧
    (AnchorSdk.buildGetRiskScoreIx queue query_account).keys =
      (PinocchioSdk.buildGetRiskScoreIx queue query_account).keys ∧
    (ClientSdk.buildGetRiskScoreIx queue query_account feed_hash).keys =
      (PinocchioSdk.buildGetRiskScoreIx queue query_account).keys ∧
    (PinocchioSdk.buildGetRiskScoreIx queue query_account).keys.all
      (fun m => !m.isSigner && !m.isWritable) = true :=
  ⟨rfl, rfl, rfl, rfl⟩

/-- C6 (amended): the consuming-program instruction data takes one of
three forms — empty (pinocchio), the hex-decoded feed hash bytes (plain
client), or the fixed 8-byte Anchor instruction discriminator
`sha256("global:verify_risk_score_feed")[0..8]` (anchor). -/
theorem ix_data_forms (queue query_account feed_hash : String) :
    (PinocchioSdk.buildGetRiskScoreIx queue query_account).data = [] ∧
    (ClientSdk.buildGetRiskScoreIx queue query_account feed_hash).data =
      ClientSdk.hexDecode (ClientSdk.strip0x feed_hash) ∧
    (AnchorSdk.buildGetRiskScoreIx queue query_account).data =
      AnchorSdk.ixDiscriminator "verify_risk_score_feed" ∧
    (AnchorSdk.ixDiscriminator "verify_risk_score_feed").length = 8 :=
  ⟨rfl, rfl, rfl, by decide⟩

/-- C6 counterexample: the anchor variant's instruction data is neither
empty nor the FeedId bytes — it is a nonempty 8-byte constant (the Anchor
discriminator), distinct from the feed's FeedId. -/
theorem anchor_ix_data_nonempty_not_feedId :
    (AnchorSdk.buildGetRiskScoreIx "queue" "account").data ≠ [] ∧
    (AnchorSdk.buildGetRiskScoreIx "queue" "account").data.length = 8 ∧
    some (AnchorSdk.buildGetRiskScoreIx "queue" "account").data ≠ feedId AnchorSdk.feed := by
  refine ⟨by decide, by decide, ?_⟩
  with_unfolding_all decide

/-- C7: an invalid feed — no jobs, a job with an empty task list, or a
job containing an unsupported task type — fails validation and never
produces a FeedId. -/
theorem invalid_feed_no_feedId (F : OracleFeed)
    (h : F.jobs.isEmpty = true ∨ F.jobs.any (fun j => j.tasks.isEmpty) = true ∨
         F.jobs.any (fun j => j.tasks.any (fun t => !supportedTask t)) = true) :
    feedId F = none := by
  have hv : ¬ (validFeed F = true) := by
    intro htrue
    unfold validFeed at htrue
    rw [Bool.and_eq_true] at htrue
    obtain ⟨hjne, hall⟩ := htrue
    rcases h with h | h | h
    · rw [Bool.not_eq_true'] at hjne
      rw [h] at hjne
      exact Bool.noConfusion hjne
    · obtain ⟨j, hj, hje⟩ := List.any_eq_true.mp h
      have hja := List.all_eq_true.mp hall j hj
      rw [Bool.and_eq_true] at hja
      have hne := hja.1
      rw [Bool.not_eq_true'] at hne
      rw [hje] at hne
      exact Bool.noConfusion hne
    · obtain ⟨j, hj, hja⟩ := List.any_eq_true.mp h
      obtain ⟨t, ht, hts⟩ := List.any_eq_true.mp hja
      have hjall := List.all_eq_true.mp hall j hj
      rw [Bool.and_eq_true] at hjall
      have h2 := List.all_eq_true.mp hjall.2 t ht
      rw [Bool.not_eq_true'] at hts
      rw [h2] at hts
      exact Bool.noConfusion hts
  simp only [feedId, feedDigest]
  rw [if_neg hv]

/-- Witness for C7 at a feed whose only job has an empty task list. -/
theorem invalid_feed_no_feedId_witness :
    (exEmptyTasksFeed.jobs.isEmpty = true ∨
     exEmptyTasksFeed.jobs.any (fun j => j.tasks.isEmpty) = true ∨
     exEmptyTasksFeed.jobs.any (fun j => j.tasks.any (fun t => !supportedTask t)) = true) ∧
    feedId exEmptyTasksFeed = none :=
  ⟨Or.inr (Or.inl (by decide)), invalid_feed_no_feedId _ (Or.inr (Or.inl (by decide)))⟩

/-- C8: quote requesting enforces consensus — fewer than the required
distinct oracle samples yields a ConsensusError, a sample spread above
`max_spread_pct` yields a ConsensusError, and otherwise the aggregate is
the median of the received samples. -/
theorem requestQuote_consensus (responses : List (String × ℚ)) (minS : Nat) (maxSpread : ℚ) :
    (distinctOracleCount responses < minS →
      requestQuote responses minS maxSpread =
        RequestOutcome.failure ConsensusError.insufficientSamples) ∧
    (minS ≤ distinctOracleCount responses →
      maxSpread < spreadPct (responses.map Prod.snd) →
      requestQuote responses minS maxSpread =
        RequestOutcome.failure ConsensusError.spreadExceeded) ∧
    (minS ≤ distinctOracleCount responses →
      spreadPct (responses.map Prod.snd) ≤ maxSpread →
      requestQuote responses minS maxSpread =
        RequestOutcome.quote (medianQ (responses.map Prod.snd))) := by
  unfold requestQuote
  refine ⟨fun h => by rw [if_pos h], fun h1 h2 => ?_, fun h1 h2 => ?_⟩
  · rw [if_neg (not_lt.mpr h1), if_pos h2]
  · rw [if_neg (not_lt.mpr h1), if_neg (not_lt.mpr h2)]

/-- Witness for C8: the spec's `{40, 95, 42}` example rejects with a
spread error, a single sample rejects for insufficiency, and three
clustered samples aggregate to their median 41. -/
theorem requestQuote_consensus_witness :
    (3 ≤ distinctOracleCount exSpreadResponses ∧
     (10 : ℚ) < spreadPct (exSpreadResponses.map Prod.snd) ∧
     requestQuote exSpreadResponses 3 10 =
       RequestOutcome.failure ConsensusError.spreadExceeded) ∧
    (distinctOracleCount exFewResponses < 3 ∧
     requestQuote exFewResponses 3 10 =
       RequestOutcome.failure ConsensusError.insufficientSamples) ∧
    (3 ≤ distinctOracleCount exGoodResponses ∧
     spreadPct (exGoodResponses.map Prod.snd) ≤ 10 ∧
     requestQuote exGoodResponses 3 10 =
       RequestOutcome.quote (medianQ (exGoodResponses.map Prod.snd)) ∧
     medianQ (exGoodResponses.map Prod.snd) = 41) := by
  refine ⟨⟨?h1, ?h2, ?_⟩, ⟨?h3, ?_⟩, ⟨?h4, ?h5, ?_, ?_⟩⟩
  case h1 => with_unfolding_all decide
  case h2 => with_unfolding_all decide
  case h3 => with_unfolding_all decide
  case h4 => with_unfolding_all decide
  case h5 => with_unfolding_all decide
  · exact (requestQuote_consensus exSpreadResponses 3 10).2.1
      (by with_unfolding_all decide) (by with_unfolding_all decide)
  · exact (requestQuote_consensus exFewResponses 3 10).1 (by with_unfolding_all decide)
  · exact (requestQuote_consensus exGoodResponses 3 10).2.2
      (by with_unfolding_all decide) (by with_unfolding_all decide)
  · with_unfolding_all decide

/-- C9: the three SDK variants build element-for-element identical jobs
and feeds (same tasks, same aggregation config 1/1/100), so all three
canonicalize to the same FeedId. -/
theorem sdk_feeds_identical :
    ClientSdk.feed = PinocchioSdk.feed ∧ PinocchioSdk.feed = AnchorSdk.feed ∧
    ClientSdk.getRangeRiskScoreJob = PinocchioSdk.getRangeRiskScoreJob ∧
    PinocchioSdk.getRangeRiskScoreJob = AnchorSdk.getRangeRiskScoreJob ∧
    ClientSdk.feed.minJobResponses = 1 ∧ ClientSdk.feed.minOracleSamples = 1 ∧
    ClientSdk.feed.maxJobRangePct = 100 ∧
    feedId ClientSdk.feed = feedId PinocchioSdk.feed ∧
    feedId PinocchioSdk.feed = feedId AnchorSdk.feed :=
  ⟨rfl, rfl, rfl, rfl, rfl, rfl, rfl, rfl, rfl⟩

/-- C10: the feed is a constant independent of the queried subject — the
subject address is hardcoded inside the httpTask URL, and for any two
`query_account` values the quote request (hence feed and FeedId) and the
program instruction's data and program id are identical; the query
account only changes the account list. -/
theorem feed_independent_of_query (apiKey queue q1 q2 : String) :
    (riskScoreFlow apiKey queue q1).request = (riskScoreFlow apiKey queue q2).request ∧
    (riskScoreFlow apiKey queue q1).request.feeds = [PinocchioSdk.feed] ∧
    PinocchioSdk.getRangeRiskScoreJob.tasks.head? = some (OracleTask.httpTask
      "https://api.range.org/v1/risk/address?address=5PAhQiYdLBd6SVdjzBQDxUAEFyDdF5ExNPQfcscnPRj5&network=solana"
      [("accept", "application/json"), ("X-API-KEY", "${RANGE_API_KEY}")]) ∧
    ((riskScoreFlow apiKey queue q1).request.feeds.map feedId) =
      ((riskScoreFlow apiKey queue q2).request.feeds.map feedId) ∧
    (riskScoreFlow apiKey queue q1).programIx.data = (riskScoreFlow apiKey queue q2).programIx.data ∧
    (riskScoreFlow apiKey queue q1).programIx.programId =
      (riskScoreFlow apiKey queue q2).programIx.programId :=
  ⟨rfl, rfl, rfl, rfl, rfl, rfl⟩
